import Mathlib

/-!
Shallow embedding of `src/src/main.rs` of the waylandsink-with-video-overlay
example program.  The program wires a GStreamer appsrc → videoconvert →
waylandsink pipeline into a Wayland window.  The parts owned by the program
itself — the need-data frame-generation callback, the window-background
gradient loop, and the element-creation error paths of `create_pipeline` —
are embedded below as executable Lean definitions; machine integers are
modelled as `Nat` with explicit reduction modulo `2 ^ 32` where the Rust
code computes in `u32`.
-/

namespace WaylandOverlay

/-- `const WIDTH: usize = 320;` (main.rs line 39). -/
def WIDTH : Nat := 320

/-- `const HEIGHT: usize = 240;` (main.rs line 40). -/
def HEIGHT : Nat := 240

/-- The pixel layouts the program mentions; only BGRx is used. -/
inductive VideoFormat
  | Bgrx
deriving DecidableEq, Repr

/-- The video format descriptor built by `gst_video::VideoInfo::builder`
(main.rs lines 84-88): pixel format, dimensions and frame rate. -/
structure VideoInfo where
  format : VideoFormat
  width : Nat
  height : Nat
  fpsNum : Nat
  fpsDen : Nat
deriving DecidableEq, Repr

/-- Stride of plane 0.  Modelled from GStreamer's video-info fill_planes for
the packed 4-byte-per-pixel BGRx format: the stride is `width * 4`. -/
def VideoInfo.planeStride (info : VideoInfo) : Nat := info.width * 4

/-- Total byte size of one frame.  Modelled from GStreamer's video-info
fill_planes for BGRx: `size = stride[0] * height`. -/
def VideoInfo.size (info : VideoInfo) : Nat := info.planeStride * info.height

/-- `video_info` as built in `create_pipeline` (main.rs lines 84-88):
BGRx, 320×240, 2/1 frames per second. -/
def video_info : VideoInfo :=
  { format := .Bgrx, width := WIDTH, height := HEIGHT, fpsNum := 2, fpsDen := 1 }

/-- `gst::MSECOND` in nanoseconds, the base unit of GStreamer clock times. -/
def MSECOND : Nat := 1000000

/-- `let r = if i % 2 == 0 { 0 } else { 255 };` (main.rs line 118). -/
def frameR (i : Nat) : Nat := if i % 2 = 0 then 0 else 255

/-- `let g = if i % 3 == 0 { 0 } else { 255 };` (main.rs line 119). -/
def frameG (i : Nat) : Nat := if i % 3 = 0 then 0 else 255

/-- `let b = if i % 5 == 0 { 0 } else { 255 };` (main.rs line 120). -/
def frameB (i : Nat) : Nat := if i % 5 = 0 then 0 else 255

/-- The inner pixel loop (main.rs lines 154-159): `chunks_exact_mut(4)` over
the slice `line[..(4 * width)]` overwrites each 4-byte chunk with
`[b, g, r, 0]`.  The recursion consumes one 4-byte chunk per pixel and keeps
whatever lies beyond the slice untouched. -/
def fillPixels (b g r : Nat) : Nat → List Nat → List Nat
  | 0, bytes => bytes
  | w + 1, bytes => b :: g :: r :: 0 :: fillPixels b g r w (bytes.drop 4)

/-- One line of the fill loop: the slice expression `line[..(4 * width)]`
panics — modelled as `none` — when `4 * width` exceeds the line length
(main.rs line 154); otherwise the pixels are overwritten. -/
def fillLine (width b g r : Nat) (line : List Nat) : Option (List Nat) :=
  if 4 * width ≤ line.length then some (fillPixels b g r width line) else none

/-- The outer loop (main.rs lines 147-152): `chunks_exact_mut(stride)` yields
full stride-sized chunks as long as one remains, and `take(height)` stops
after `height` of them.  Assumes `stride ≠ 0` (enforced by `fillPlane`). -/
def fillLines (stride width b g r : Nat) : Nat → List Nat → Option (List Nat)
  | 0, data => some data
  | h + 1, data =>
    if stride ≤ data.length then
      (fillLine width b g r (data.take stride)).bind fun line =>
        (fillLines stride width b g r h (data.drop stride)).map fun rest => line ++ rest
    else
      some data

/-- The whole pixel-fill loop over the mapped plane.  Rust's
`chunks_exact_mut` asserts a non-zero chunk size, so a zero stride panics
(`none`) before any iteration. -/
def fillPlane (stride width height b g r : Nat) (data : List Nat) : Option (List Nat) :=
  if stride = 0 then none else fillLines stride width b g r height data

/-- A buffer pushed into the appsrc: its allocated byte size
(`gst::Buffer::with_size(video_info.size())`, main.rs line 123), its
presentation timestamp in nanoseconds (`set_pts`, line 129), and its byte
contents after the fill loop. -/
structure FrameBuffer where
  size : Nat
  ptsNs : Nat
  data : List Nat
deriving DecidableEq, Repr

/-- The frame-producing part of the need-data closure (main.rs lines
116-166) at counter value `i`: allocate a buffer (its initial, unspecified
contents are the parameter `mem`), set `pts = i * 500 * MSECOND`, map it
with `info` and run the fill loop. -/
def produceFrame (info : VideoInfo) (i : Nat) (mem : List Nat) : Option FrameBuffer :=
  (fillPlane info.planeStride info.width info.height
      (frameB i) (frameG i) (frameR i) mem).map
    fun data => { size := info.size, ptsNs := i * 500 * MSECOND, data := data }

/-- The mutable environment of the need-data closure: the frame counter `i`
(main.rs line 100) and the captured `video_info` value. -/
structure SrcState where
  counter : Nat
  info : VideoInfo
deriving DecidableEq, Repr

/-- What one invocation of the need-data callback does to the appsrc. -/
inductive NeedDataAction
  | pushed (buf : FrameBuffer)
  | eos
  | panicked
deriving DecidableEq, Repr

/-- One invocation of the need-data callback (main.rs lines 109-167): when
the counter equals 50 it signals end-of-stream and returns; otherwise it
produces one frame, increments the counter and pushes the buffer.  A failed
fill (an out-of-range slice) would be a Rust panic before the increment. -/
def needDataStep (s : SrcState) (mem : List Nat) : SrcState × NeedDataAction :=
  if s.counter = 50 then (s, .eos)
  else
    match produceFrame s.info s.counter mem with
    | some buf => ({ s with counter := s.counter + 1 }, .pushed buf)
    | none => (s, .panicked)

/-- The state of the closure when `set_callbacks` installs it: `i = 0`
(main.rs line 100) with the captured `video_info`. -/
def initialSrcState : SrcState := { counter := 0, info := video_info }

/-- Running the need-data callback `n` times from the initial state;
`mems n` is the (unspecified) initial content of the buffer allocated at the
n-th invocation.  Returns the final closure state and the actions taken. -/
def runNeedData (mems : Nat → List Nat) : Nat → SrcState × List NeedDataAction
  | 0 => (initialSrcState, [])
  | n + 1 =>
    let p := runNeedData mems n
    let q := needDataStep p.1 (mems n)
    (q.1, p.2 ++ [q.2])

/-- Whether a need-data invocation pushed a buffer. -/
def NeedDataAction.isPushed : NeedDataAction → Bool
  | .pushed _ => true
  | _ => false

/-- The buffers pushed during a run, in order. -/
def pushedBuffers (acts : List NeedDataAction) : List FrameBuffer :=
  acts.filterMap fun a => match a with | .pushed b => some b | _ => none

/-- `[b, g, r, 0]` repeated `w` times: the contents the fill loop writes over
the first `4 * w` bytes of a line. -/
def pixelPattern (b g r w : Nat) : List Nat :=
  List.flatten (List.replicate w [b, g, r, 0])

lemma pixelPattern_succ (b g r w : Nat) :
    pixelPattern b g r (w + 1) = b :: g :: r :: 0 :: pixelPattern b g r w := by
  simp [pixelPattern, List.replicate_succ]

lemma length_pixelPattern (b g r w : Nat) : (pixelPattern b g r w).length = 4 * w := by
  induction w with
  | zero => simp [pixelPattern]
  | succ n ih => rw [pixelPattern_succ]; simp only [List.length_cons, ih]; omega

lemma fillPixels_eq (b g r : Nat) :
    ∀ (w : Nat) (bytes : List Nat),
      fillPixels b g r w bytes = pixelPattern b g r w ++ bytes.drop (4 * w) := by
  intro w
  induction w with
  | zero => intro bytes; simp [fillPixels, pixelPattern]
  | succ n ih =>
    intro bytes
    rw [fillPixels, ih, pixelPattern_succ]
    simp only [List.cons_append, List.drop_drop]
    have h4 : 4 + 4 * n = 4 * (n + 1) := by omega
    rw [h4]

lemma length_fillPixels (b g r w : Nat) (bytes : List Nat) (h : 4 * w ≤ bytes.length) :
    (fillPixels b g r w bytes).length = bytes.length := by
  rw [fillPixels_eq]
  simp [length_pixelPattern]
  omega

lemma fillPixels_all (b g r w : Nat) (bytes : List Nat) (h : bytes.length = 4 * w) :
    fillPixels b g r w bytes = pixelPattern b g r w := by
  rw [fillPixels_eq, List.drop_eq_nil_of_le (by omega), List.append_nil]

lemma fillLine_of_le (width b g r : Nat) (line : List Nat) (h : 4 * width ≤ line.length) :
    fillLine width b g r line = some (fillPixels b g r width line) := by
  simp [fillLine, h]

/-- Master lemma for the outer fill loop: when every line is long enough for
the slice `line[..(4 * width)]`, the loop succeeds (no panic), preserves the
data length, leaves everything past the first `height` lines untouched, and
leaves the tail of each visited line past its first `4 * width` bytes
untouched. -/
lemma fillLines_spec (stride width b g r : Nat) (hws : 4 * width ≤ stride) :
    ∀ (h : Nat) (data : List Nat), ∃ out,
      fillLines stride width b g r h data = some out
      ∧ out.length = data.length
      ∧ out.drop (stride * h) = data.drop (stride * h)
      ∧ ∀ l, l < h →
          (out.drop (l * stride + 4 * width)).take (stride - 4 * width)
            = (data.drop (l * stride + 4 * width)).take (stride - 4 * width) := by
  intro h
  induction h with
  | zero =>
    intro data
    exact ⟨data, rfl, rfl, rfl, fun l hl => absurd hl (Nat.not_lt_zero l)⟩
  | succ n ih =>
    intro data
    by_cases hd : stride ≤ data.length
    · obtain ⟨rest, hrest, hrlen, hrdrop, hrline⟩ := ih (data.drop stride)
      have hline : (data.take stride).length = stride := by
        simp [List.length_take]; omega
      have hfl : fillLine width b g r (data.take stride)
          = some (fillPixels b g r width (data.take stride)) :=
        fillLine_of_le _ _ _ _ _ (by omega)
      have hflen : (fillPixels b g r width (data.take stride)).length = stride := by
        rw [length_fillPixels _ _ _ _ _ (by omega)]; exact hline
      refine ⟨fillPixels b g r width (data.take stride) ++ rest, ?_, ?_, ?_, ?_⟩
      · simp only [fillLines, if_pos hd, hfl, hrest]
        rfl
      · simp only [List.length_append, hflen, hrlen, List.length_drop]; omega
      · have hmul : stride * (n + 1) = stride + stride * n := by ring
        rw [hmul]
        rw [← List.drop_drop (stride * n) stride, List.drop_left' hflen, hrdrop,
          List.drop_drop]
      · intro l hl
        match l with
        | 0 =>
          simp only [Nat.zero_mul, Nat.zero_add]
          rw [fillPixels_eq]
          rw [List.append_assoc, List.drop_left' (length_pixelPattern b g r width)]
          have hdt : ((data.take stride).drop (4 * width)).length = stride - 4 * width := by
            simp [List.length_drop, hline]
          rw [List.take_left' hdt, List.take_drop]
          have hsw2 : 4 * width + (stride - 4 * width) = stride := by omega
          rw [hsw2]
        | l' + 1 =>
          have e1 : (l' + 1) * stride + 4 * width = stride + (l' * stride + 4 * width) := by
            ring
          have e2 : (fillPixels b g r width (data.take stride) ++ rest).drop
                (stride + (l' * stride + 4 * width))
              = rest.drop (l' * stride + 4 * width) := by
            rw [← List.drop_drop (l' * stride + 4 * width) stride, List.drop_left' hflen]
          have e3 : data.drop (stride + (l' * stride + 4 * width))
              = (data.drop stride).drop (l' * stride + 4 * width) :=
            (List.drop_drop _ _ _).symm
          rw [e1, e2, e3, hrline l' (by omega)]
    · exact ⟨data, by simp only [fillLines, if_neg hd], rfl, rfl, fun l hl => rfl⟩

/-- When the line length is exactly `4 * width` (the program's case: the
BGRx stride is `width * 4`) and the data is exactly `height` lines, the fill
loop overwrites everything with the pixel pattern. -/
lemma fillLines_full (width b g r : Nat) :
    ∀ (h : Nat) (data : List Nat), data.length = 4 * width * h →
      fillLines (4 * width) width b g r h data
        = some (List.flatten (List.replicate h (pixelPattern b g r width))) := by
  intro h
  induction h with
  | zero =>
    intro data hdata
    simp only [Nat.mul_zero] at hdata
    rw [List.eq_nil_of_length_eq_zero hdata]
    rfl
  | succ n ih =>
    intro data hdata
    have hge : 4 * width ≤ data.length := by
      rw [hdata]
      calc 4 * width = 4 * width * 1 := by ring
        _ ≤ 4 * width * (n + 1) := Nat.mul_le_mul_left _ (by omega)
    have hline : (data.take (4 * width)).length = 4 * width := by
      simp [List.length_take]; omega
    have hrest : (data.drop (4 * width)).length = 4 * width * n := by
      simp only [List.length_drop, hdata]; ring_nf; omega
    simp only [fillLines, if_pos hge, fillLine_of_le _ _ _ _ _ (le_of_eq hline.symm),
      ih _ hrest, fillPixels_all _ _ _ _ _ hline,
      List.replicate_succ, List.flatten_cons]
    rfl

/-- The frame contents produced at counter value `i`: 240 lines of 320
copies of the 4-byte value `[b, g, r, 0]`. -/
def solidFrameData (i : Nat) : List Nat :=
  List.flatten (List.replicate HEIGHT (pixelPattern (frameB i) (frameG i) (frameR i) WIDTH))

lemma video_info_planeStride : video_info.planeStride = 1280 := rfl

lemma video_info_size : video_info.size = 307200 := rfl

lemma produceFrame_video_info (i : Nat) (mem : List Nat) :
    ∃ buf, produceFrame video_info i mem = some buf
      ∧ buf.size = video_info.size
      ∧ buf.ptsNs = i * 500 * MSECOND
      ∧ buf.data.length = mem.length
      ∧ (mem.length = video_info.size → buf.data = solidFrameData i) := by
  obtain ⟨out, hout, hlen, -, -⟩ :=
    fillLines_spec 1280 320 (frameB i) (frameG i) (frameR i) (by norm_num) 240 mem
  have hplane : fillPlane video_info.planeStride video_info.width video_info.height
      (frameB i) (frameG i) (frameR i) mem = some out := by
    show fillPlane 1280 320 240 (frameB i) (frameG i) (frameR i) mem = some out
    rw [fillPlane, if_neg (by norm_num)]
    exact hout
  refine ⟨{ size := video_info.size, ptsNs := i * 500 * MSECOND, data := out },
    ?_, rfl, rfl, hlen, ?_⟩
  · rw [produceFrame, hplane]
    rfl
  · intro hmem
    have hmem2 : mem.length = 4 * 320 * 240 := by rw [hmem, video_info_size]
    have hfull := fillLines_full 320 (frameB i) (frameG i) (frameR i) 240 mem hmem2
    have h1280 : (4 : Nat) * 320 = 1280 := by norm_num
    rw [h1280] at hfull
    rw [hout] at hfull
    have hdata : out
        = (List.replicate 240 (pixelPattern (frameB i) (frameG i) (frameR i) 320)).flatten :=
      Option.some_inj.mp hfull
    rw [hdata]
    rfl

lemma needDataStep_eos (s : SrcState) (mem : List Nat) (h : s.counter = 50) :
    needDataStep s mem = (s, .eos) := by
  rw [needDataStep, if_pos h]

lemma needDataStep_produce (c : Nat) (mem : List Nat) (hc : c ≠ 50) :
    ∃ buf, needDataStep ⟨c, video_info⟩ mem = (⟨c + 1, video_info⟩, .pushed buf)
      ∧ buf.size = video_info.size
      ∧ buf.ptsNs = c * 500 * MSECOND
      ∧ buf.data.length = mem.length
      ∧ (mem.length = video_info.size → buf.data = solidFrameData c) := by
  obtain ⟨buf, hbuf, hsize, hpts, hlen, hdata⟩ := produceFrame_video_info c mem
  refine ⟨buf, ?_, hsize, hpts, hlen, hdata⟩
  rw [needDataStep, if_neg hc]
  simp only [hbuf]

lemma countP_isPushed (acts : List NeedDataAction) :
    acts.countP NeedDataAction.isPushed = (pushedBuffers acts).length := by
  induction acts with
  | nil => rfl
  | cons a l ih =>
    rw [List.countP_cons]
    match a with
    | .pushed b => simp [pushedBuffers, NeedDataAction.isPushed, List.filterMap_cons] at ih ⊢; omega
    | .eos => simp [pushedBuffers, NeedDataAction.isPushed, List.filterMap_cons] at ih ⊢; omega
    | .panicked => simp [pushedBuffers, NeedDataAction.isPushed, List.filterMap_cons] at ih ⊢; omega

lemma pushedBuffers_append (a b : List NeedDataAction) :
    pushedBuffers (a ++ b) = pushedBuffers a ++ pushedBuffers b := by
  simp [pushedBuffers, List.filterMap_append]

/-- Master lemma for the run of the need-data callback: after `n`
invocations the counter is `min n 50`, the captured format descriptor is
still `video_info`, and the pushed buffers carry timestamps
`0·500ms, 1·500ms, …` up to frame `min n 50 - 1`. -/
lemma runNeedData_spec (mems : Nat → List Nat) :
    ∀ n, (runNeedData mems n).1 = ⟨min n 50, video_info⟩
      ∧ (pushedBuffers (runNeedData mems n).2).map FrameBuffer.ptsNs
          = (List.range (min n 50)).map (fun c => c * 500 * MSECOND) := by
  intro n
  induction n with
  | zero =>
    constructor
    · rfl
    · rfl
  | succ n ih =>
    obtain ⟨hstate, hpts⟩ := ih
    by_cases hn : n < 50
    · have hmin : min n 50 = n := by omega
      have hmin2 : min (n + 1) 50 = n + 1 := by omega
      obtain ⟨buf, hstep, -, hbpts, -, -⟩ :=
        needDataStep_produce n (mems n) (by omega)
      rw [hmin] at hstate
      constructor
      · show (needDataStep (runNeedData mems n).1 (mems n)).1 = _
        rw [hstate, hstep, hmin2]
      · show (pushedBuffers ((runNeedData mems n).2
            ++ [(needDataStep (runNeedData mems n).1 (mems n)).2])).map FrameBuffer.ptsNs = _
        rw [hstate, hstep]
        rw [pushedBuffers_append, List.map_append, hpts, hmin, hmin2, List.range_succ,
          List.map_append]
        simp [pushedBuffers, List.filterMap_cons, hbpts]
    · have hmin : min n 50 = 50 := by omega
      have hmin2 : min (n + 1) 50 = 50 := by omega
      rw [hmin] at hstate
      have hstep := needDataStep_eos ⟨50, video_info⟩ (mems n) rfl
      constructor
      · show (needDataStep (runNeedData mems n).1 (mems n)).1 = _
        rw [hstate, hstep, hmin2]
      · show (pushedBuffers ((runNeedData mems n).2
            ++ [(needDataStep (runNeedData mems n).1 (mems n)).2])).map FrameBuffer.ptsNs = _
        rw [hstate, hstep]
        rw [pushedBuffers_append, List.map_append, hpts, hmin, hmin2]
        simp [pushedBuffers, List.filterMap_cons]

/-- Every buffer pushed during a run has the declared frame size and a
timestamp belonging to some frame index below 50. -/
lemma mem_pushedBuffers_run (mems : Nat → List Nat) (n : Nat) (buf : FrameBuffer)
    (h : buf ∈ pushedBuffers (runNeedData mems n).2) :
    buf.size = video_info.size ∧ ∃ c, c < 50 ∧ buf.ptsNs = c * 500 * MSECOND := by
  induction n with
  | zero => simp [runNeedData, pushedBuffers] at h
  | succ n ih =>
    obtain ⟨hstate, -⟩ := runNeedData_spec mems n
    have hsplit : pushedBuffers (runNeedData mems (n + 1)).2
        = pushedBuffers (runNeedData mems n).2
          ++ pushedBuffers [(needDataStep (runNeedData mems n).1 (mems n)).2] := by
      show pushedBuffers ((runNeedData mems n).2 ++ _) = _
      rw [pushedBuffers_append]
    rw [hsplit, List.mem_append] at h
    rcases h with h | h
    · exact ih h
    · by_cases hn : n < 50
      · obtain ⟨buf2, hstep, hsize, hbpts, -, -⟩ :=
          needDataStep_produce (min n 50) (mems n) (by omega)
        rw [hstate, hstep] at h
        simp [pushedBuffers, List.filterMap_cons] at h
        subst h
        exact ⟨hsize, min n 50, by omega, hbpts⟩
      · have hstep := needDataStep_eos ⟨min n 50, video_info⟩ (mems n) (by simp; omega)
        rw [hstate, hstep] at h
        simp [pushedBuffers, List.filterMap_cons] at h

/-- The failure points of `create_pipeline` that depend on the external
libraries: whether GStreamer initialises, whether each of the three element
factories exists, and whether adding and linking the elements succeeds. -/
structure GstEnv where
  initOk : Bool
  hasAppsrc : Bool
  hasVideoconvert : Bool
  hasWaylandsink : Bool
  addOk : Bool
  linkOk : Bool
deriving DecidableEq, Repr

/-- The errors `create_pipeline` can propagate.  `MissingElement` mirrors
`struct MissingElement(&'static str)` (main.rs lines 19-21), produced by the
`map_err` on each `ElementFactory::make` call (lines 48-53). -/
inductive PipelineBuildError
  | InitFailed
  | MissingElement (name : String)
  | AddFailed
  | LinkFailed
deriving DecidableEq, Repr

/-- The pipeline assembled by a successful `create_pipeline`: the linked
elements in order, the caps installed on the appsrc, and the initial state
of the need-data closure. -/
structure GstPipeline where
  elements : List String
  caps : VideoInfo
  srcInit : SrcState
deriving DecidableEq, Repr

/-- `create_pipeline` (main.rs lines 43-198), reduced to its decision
structure: each fallible step either succeeds or aborts the whole function
with the corresponding error (the `?` operator and `map_err`), checked in
program order — `gst::init()?`, the three `ElementFactory::make` calls,
`add_many?`, `link_many?`. -/
def create_pipeline (env : GstEnv) : Except PipelineBuildError GstPipeline :=
  if env.initOk = false then .error .InitFailed
  else if env.hasAppsrc = false then .error (.MissingElement "appsrc")
  else if env.hasVideoconvert = false then .error (.MissingElement "videoconvert")
  else if env.hasWaylandsink = false then .error (.MissingElement "waylandsink")
  else if env.addOk = false then .error .AddFailed
  else if env.linkOk = false then .error .LinkFailed
  else .ok { elements := ["appsrc", "videoconvert", "waylandsink"],
             caps := video_info,
             srcInit := initialSrcState }

/-- What the process does with `create_pipeline`'s result. -/
inductive ProcessOutcome
  | started (p : GstPipeline)
  | printedError (e : PipelineBuildError)
deriving DecidableEq, Repr

/-- The final match of `main` (main.rs lines 387-390): on success the
pipeline is handed to `main_loop`; on error the message is printed with
`eprintln!("Error! {}", e)` and `main` returns, ending the process.  There
is no other branch — no retry and no recovery. -/
def mainOutcome (env : GstEnv) : ProcessOutcome :=
  match create_pipeline env with
  | .ok p => .started p
  | .error e => .printedError e

/-- One invocation of the need-data callback including the fallible buffer
allocation: `gst::Buffer::with_size(video_info.size())` (main.rs line 123)
returns a Result, and `alloc = none` models a failed allocation.  Its
`.unwrap()` then panics — the process aborts with the printed panic
message — before the counter changes or anything is pushed; a successful
allocation with contents `mem` continues as `needDataStep`. -/
def needDataStepAlloc (s : SrcState) (alloc : Option (List Nat)) : SrcState × NeedDataAction :=
  if s.counter = 50 then (s, .eos)
  else
    match alloc with
    | none => (s, .panicked)
    | some mem =>
      match produceFrame s.info s.counter mem with
      | some buf => ({ s with counter := s.counter + 1 }, .pushed buf)
      | none => (s, .panicked)

/-- Whether a need-data action aborts the process: a Rust panic (a failed
`.unwrap()`) prints the panic message and terminates the process fatally;
pushing a buffer or signaling end-of-stream lets the process continue. -/
def NeedDataAction.fatal : NeedDataAction → Bool
  | .panicked => true
  | _ => false

/-- `buf_x`, the window-background width in pixels (main.rs line 250). -/
def buf_x : Nat := 640

/-- `buf_y`, the window-background height in pixels (main.rs line 251). -/
def buf_y : Nat := 480

/-- `2 ^ 32`, the modulus of Rust `u32` arithmetic. -/
def U32MOD : Nat := 4294967296

/-- u32 multiplication, on `Nat` with explicit reduction modulo `2 ^ 32`. -/
def u32mul (a b : Nat) : Nat := a * b % U32MOD

/-- u32 addition, on `Nat` with explicit reduction modulo `2 ^ 32`. -/
def u32add (a b : Nat) : Nat := (a + b) % U32MOD

/-- u32 wrapping subtraction, on `Nat` with explicit reduction modulo
`2 ^ 32`. -/
def u32sub (a b : Nat) : Nat := (a + U32MOD - b % U32MOD) % U32MOD

/-- u32 left shift, on `Nat` with explicit reduction modulo `2 ^ 32`. -/
def u32shl (a k : Nat) : Nat := (a <<< k) % U32MOD

/-- One iteration of the window-background gradient loop (main.rs lines
256-264): the u32 value written at index `i`, computed with the loop's own
u32 operations (u32 division and remainder cannot overflow and are plain
truncating operations). -/
def gradPixel (i : Nat) : Nat :=
  let x := i % buf_x
  let y := i / buf_x
  let a := 0xFF
  let r := min (u32mul (u32sub buf_x x) 0xFF / buf_x) (u32mul (u32sub buf_y y) 0xFF / buf_y)
  let g := min (u32mul x 0xFF / buf_x) (u32mul (u32sub buf_y y) 0xFF / buf_y)
  let b := min (u32mul (u32sub buf_x x) 0xFF / buf_x) (u32mul y 0xFF / buf_y)
  u32add (u32add (u32add (u32shl a 24) (u32shl r 16)) (u32shl g 8)) b

/-- The closed-form value the specification states for pixel `i`: plain
unbounded natural arithmetic with truncating division, no u32 reduction. -/
def gradPixelSpec (i : Nat) : Nat :=
  let x := i % 640
  let y := i / 640
  let r := min ((640 - x) * 255 / 640) ((480 - y) * 255 / 480)
  let g := min (x * 255 / 640) ((480 - y) * 255 / 480)
  let b := min ((640 - x) * 255 / 640) (y * 255 / 480)
  (0xFF <<< 24) + (r <<< 16) + (g <<< 8) + b

/-- `u32::to_ne_bytes` on the little-endian platforms this program targets:
the four bytes of `n`, least significant first. -/
def toNeBytes (n : Nat) : List Nat :=
  [n % 256, n / 256 % 256, n / 65536 % 256, n / 16777216 % 256]

/-- The sequence of 4-byte writes the gradient loop performs on the
tempfile (main.rs lines 256-264), one `write_all` per index
`i < buf_x * buf_y`. -/
def tmpWrites : List (List Nat) :=
  (List.range (buf_x * buf_y)).map fun i => toNeBytes (gradPixel i)

/-- All bytes written to the tempfile, in order. -/
def tmpBytes : List Nat := tmpWrites.flatten

/-- The byte size declared to `shm.create_pool` (main.rs line 280):
`(buf_x * buf_y * 4) as i32`. -/
def poolSize : Nat := buf_x * buf_y * 4

/-- The arguments of `pool.create_buffer` (main.rs lines 282-288). -/
structure ShmBuffer where
  offset : Nat
  width : Nat
  height : Nat
  stride : Nat
deriving DecidableEq, Repr

/-- The window-background buffer: offset 0, 640×480, stride `buf_x * 4`. -/
def windowBuffer : ShmBuffer :=
  { offset := 0, width := buf_x, height := buf_y, stride := buf_x * 4 }

lemma u32sub_small (a b : Nat) (hb : b ≤ a) (ha : a < U32MOD) : u32sub a b = a - b := by
  simp only [u32sub, U32MOD] at *
  omega

lemma u32mul_small (a b : Nat) (h : a * b < U32MOD) : u32mul a b = a * b :=
  Nat.mod_eq_of_lt h

lemma gradPixel_eq_spec (i : Nat) (hi : i < buf_x * buf_y) :
    gradPixel i = gradPixelSpec i ∧ gradPixelSpec i < 2 ^ 32 := by
  have hi2 : i < 307200 := hi
  have hx : i % 640 < 640 := Nat.mod_lt _ (by norm_num)
  have hy : i / 640 < 480 := Nat.div_lt_of_lt_mul (by omega)
  have e1 : u32sub 640 (i % 640) = 640 - i % 640 :=
    u32sub_small _ _ (le_of_lt hx) (by simp [U32MOD])
  have e2 : u32sub 480 (i / 640) = 480 - i / 640 :=
    u32sub_small _ _ (le_of_lt hy) (by simp [U32MOD])
  have e3 : u32mul (640 - i % 640) 255 = (640 - i % 640) * 255 :=
    u32mul_small _ _ (by simp only [U32MOD]; omega)
  have e4 : u32mul (480 - i / 640) 255 = (480 - i / 640) * 255 :=
    u32mul_small _ _ (by simp only [U32MOD]; omega)
  have e5 : u32mul (i % 640) 255 = i % 640 * 255 :=
    u32mul_small _ _ (by simp only [U32MOD]; omega)
  have e6 : u32mul (i / 640) 255 = i / 640 * 255 :=
    u32mul_small _ _ (by simp only [U32MOD]; omega)
  have hr1 : (640 - i % 640) * 255 / 640 ≤ 255 := by omega
  have hr2 : (480 - i / 640) * 255 / 480 ≤ 255 := by omega
  have hr3 : i % 640 * 255 / 640 ≤ 255 := by omega
  have hr4 : i / 640 * 255 / 480 ≤ 255 := by omega
  simp only [gradPixel, gradPixelSpec, buf_x, buf_y, e1, e2, e3, e4, e5, e6]
  generalize hR : min ((640 - i % 640) * 255 / 640) ((480 - i / 640) * 255 / 480) = R
  generalize hG : min (i % 640 * 255 / 640) ((480 - i / 640) * 255 / 480) = G
  generalize hB : min ((640 - i % 640) * 255 / 640) (i / 640 * 255 / 480) = B
  have hRle : R ≤ 255 := hR ▸ le_trans (min_le_left _ _) hr1
  have hGle : G ≤ 255 := hG ▸ le_trans (min_le_left _ _) hr3
  have hBle : B ≤ 255 := hB ▸ le_trans (min_le_left _ _) hr1
  simp only [u32add, u32shl, U32MOD]
  omega

lemma length_toNeBytes (n : Nat) : (toNeBytes n).length = 4 := rfl

lemma length_tmpBytes : tmpBytes.length = buf_x * buf_y * 4 := by
  rw [tmpBytes, tmpWrites, List.length_flatten, List.map_map]
  have h1 : (List.length ∘ fun i => toNeBytes (gradPixel i)) = fun _ : Nat => 4 := by
    funext i
    rfl
  rw [h1, List.map_const', List.sum_replicate, List.length_range, smul_eq_mul]

lemma flatten_replicate_flatten {α : Type _} (h w : Nat) (pat : List α) :
    List.flatten (List.replicate h (List.flatten (List.replicate w pat)))
      = List.flatten (List.replicate (h * w) pat) := by
  induction h with
  | zero => rw [Nat.zero_mul]; rfl
  | succ n ih =>
    rw [List.replicate_succ, List.flatten_cons, ih]
    have harith : (n + 1) * w = w + n * w := by ring
    rw [harith, List.replicate_add, List.flatten_append]

lemma pattern_take {α : Type _} (pat : List α) :
    ∀ (p N : Nat), p < N →
      ((List.flatten (List.replicate N pat)).drop (pat.length * p)).take pat.length = pat := by
  intro p
  induction p with
  | zero =>
    intro N hN
    match N, hN with
    | m + 1, _ =>
      rw [List.replicate_succ, List.flatten_cons, Nat.mul_zero, List.drop_zero, List.take_left]
  | succ p ih =>
    intro N hN
    match N, hN with
    | m + 1, hN =>
      rw [List.replicate_succ, List.flatten_cons]
      have harith : pat.length * (p + 1) = pat.length + pat.length * p := by ring
      rw [harith, ← List.drop_drop (pat.length * p) pat.length, List.drop_left]
      exact ih m (by omega)

lemma produceFrame_ptsNs (info : VideoInfo) (i : Nat) (mem : List Nat) (buf : FrameBuffer)
    (h : produceFrame info i mem = some buf) : buf.ptsNs = i * 500 * MSECOND := by
  rw [produceFrame] at h
  cases hfp : fillPlane info.planeStride info.width info.height
      (frameB i) (frameG i) (frameR i) mem with
  | none => rw [hfp] at h; exact Option.noConfusion h
  | some out =>
    rw [hfp] at h
    have hb := Option.some_inj.mp h
    rw [← hb]

/-- Inversion: a need-data invocation that pushed a buffer was below the
frame budget, produced exactly that buffer, and incremented the counter. -/
lemma needDataStep_pushed (s : SrcState) (mem : List Nat) (s2 : SrcState) (buf : FrameBuffer)
    (h : needDataStep s mem = (s2, .pushed buf)) :
    produceFrame s.info s.counter mem = some buf
      ∧ s2 = { s with counter := s.counter + 1 }
      ∧ s.counter ≠ 50 := by
  by_cases hc : s.counter = 50
  · rw [needDataStep, if_pos hc] at h
    have := congrArg Prod.snd h
    simp at this
  · rw [needDataStep, if_neg hc] at h
    cases hpf : produceFrame s.info s.counter mem with
    | none =>
      rw [hpf] at h
      have := congrArg Prod.snd h
      simp at this
    | some b =>
      rw [hpf] at h
      have h1 := congrArg Prod.fst h
      have h2 := congrArg Prod.snd h
      simp only [Prod.fst, Prod.snd] at h1 h2
      have hb : b = buf := by
        cases h2
        rfl
      exact ⟨hb ▸ rfl, h1.symm, hc⟩

lemma create_pipeline_ok (env : GstEnv) (p : GstPipeline)
    (h : create_pipeline env = .ok p) :
    p = { elements := ["appsrc", "videoconvert", "waylandsink"],
          caps := video_info, srcInit := initialSrcState } := by
  unfold create_pipeline at h
  split_ifs at h
  simp_all

/-- C1: The need-data callback emits exactly 50 frames before signaling
completion: after any number `n` of invocations exactly `min n 50` buffers
have been pushed; every invocation at a counter value below 50 pushes
exactly one frame buffer; and the invocation at counter value 50 signals
end-of-stream, pushes no buffer and leaves the state unchanged. -/
theorem spec_C1_fifty_frames (mems : Nat → List Nat) (n : Nat) :
    (runNeedData mems n).2.countP NeedDataAction.isPushed = min n 50
    ∧ (∀ c mem, c < 50 →
        ∃ buf, needDataStep ⟨c, video_info⟩ mem = (⟨c + 1, video_info⟩, .pushed buf))
    ∧ ∀ mem, needDataStep ⟨50, video_info⟩ mem = (⟨50, video_info⟩, .eos) := by
  refine ⟨?_, ?_, ?_⟩
  · obtain ⟨-, hpts⟩ := runNeedData_spec mems n
    have hlen := congrArg List.length hpts
    simp only [List.length_map, List.length_range] at hlen
    rw [countP_isPushed, hlen]
  · intro c mem hc
    obtain ⟨buf, hstep, -, -, -, -⟩ := needDataStep_produce c mem (by omega)
    exact ⟨buf, hstep⟩
  · intro mem
    exact needDataStep_eos _ mem rfl

theorem spec_C1_fifty_frames_witness :
    (runNeedData (fun _ => []) 3).2.countP NeedDataAction.isPushed = min 3 50
    ∧ (∀ c mem, c < 50 →
        ∃ buf, needDataStep ⟨c, video_info⟩ mem = (⟨c + 1, video_info⟩, .pushed buf))
    ∧ ∀ mem, needDataStep ⟨50, video_info⟩ mem = (⟨50, video_info⟩, .eos) :=
  spec_C1_fifty_frames (fun _ => []) 3

/-- C2: Every frame buffer pushed by the need-data callback has the byte
size declared by the video format, and that size is width × height × 4 =
307200 bytes for the fixed BGRx 320×240 format. -/
theorem spec_C2_buffer_size (mems : Nat → List Nat) (n : Nat) (buf : FrameBuffer)
    (h : buf ∈ pushedBuffers (runNeedData mems n).2) :
    buf.size = video_info.size
    ∧ video_info.size = WIDTH * HEIGHT * 4
    ∧ video_info.size = 307200 :=
  ⟨(mem_pushedBuffers_run mems n buf h).1, rfl, rfl⟩

theorem spec_C2_buffer_size_witness :
    ({ size := 307200, ptsNs := 0, data := [] } : FrameBuffer).size = video_info.size
    ∧ video_info.size = WIDTH * HEIGHT * 4
    ∧ video_info.size = 307200 :=
  spec_C2_buffer_size (fun _ => []) 1 _ (by decide)

/-- C3: Every frame produced at counter value `i` is a solid color: the
data is width × height copies of the identical 4-byte BGRx value whose
blue byte is 0 when i mod 5 = 0 and 255 otherwise, green likewise from
i mod 3, red from i mod 2, and whose padding byte is 0; equivalently every
4-byte pixel `p` of the frame holds that value. -/
theorem spec_C3_solid_color (i : Nat) (mem : List Nat) (hi : i < 50)
    (hmem : mem.length = video_info.size) :
    ∃ buf, needDataStep ⟨i, video_info⟩ mem = (⟨i + 1, video_info⟩, .pushed buf)
      ∧ buf.data = List.flatten (List.replicate (HEIGHT * WIDTH)
          [if i % 5 = 0 then 0 else 255, if i % 3 = 0 then 0 else 255,
           if i % 2 = 0 then 0 else 255, 0])
      ∧ ∀ p, p < HEIGHT * WIDTH →
          (buf.data.drop (4 * p)).take 4
            = [if i % 5 = 0 then 0 else 255, if i % 3 = 0 then 0 else 255,
               if i % 2 = 0 then 0 else 255, 0] := by
  obtain ⟨buf, hstep, -, -, -, hdata⟩ := needDataStep_produce i mem (by omega)
  have hdata2 : buf.data = List.flatten (List.replicate (HEIGHT * WIDTH)
      [if i % 5 = 0 then 0 else 255, if i % 3 = 0 then 0 else 255,
       if i % 2 = 0 then 0 else 255, 0]) := by
    rw [hdata hmem, solidFrameData, pixelPattern, flatten_replicate_flatten]
    rfl
  refine ⟨buf, hstep, hdata2, ?_⟩
  intro p hp
  rw [hdata2]
  have h4 : (4 : Nat) = ([if i % 5 = 0 then 0 else 255, if i % 3 = 0 then 0 else 255,
      if i % 2 = 0 then 0 else 255, 0] : List Nat).length := rfl
  rw [h4]
  exact pattern_take _ p (HEIGHT * WIDTH) hp

theorem spec_C3_solid_color_witness :
    ∃ buf, needDataStep ⟨0, video_info⟩ (List.replicate 307200 7)
        = (⟨0 + 1, video_info⟩, .pushed buf)
      ∧ buf.data = List.flatten (List.replicate (HEIGHT * WIDTH)
          [if 0 % 5 = 0 then 0 else 255, if 0 % 3 = 0 then 0 else 255,
           if 0 % 2 = 0 then 0 else 255, 0])
      ∧ ∀ p, p < HEIGHT * WIDTH →
          ((buf.data.drop (4 * p)).take 4
            = [if 0 % 5 = 0 then 0 else 255, if 0 % 3 = 0 then 0 else 255,
               if 0 % 2 = 0 then 0 else 255, 0]) :=
  spec_C3_solid_color 0 (List.replicate 307200 7) (by norm_num)
    (by rw [video_info_size, List.length_replicate])

/-- C4: The frame counter starts at 0; every invocation at a counter value
below 50 increments it by exactly 1 and pushes a frame; after `n`
invocations the counter equals `min n 50`, so it never exceeds 50 and stays
at 50 forever once reached; and any invocation at counter value 50 leaves
the whole state unchanged while signaling end-of-stream. -/
theorem spec_C4_counter (mems : Nat → List Nat) (n : Nat) :
    (runNeedData mems 0).1.counter = 0
    ∧ (runNeedData mems n).1.counter = min n 50
    ∧ (runNeedData mems n).1.counter ≤ 50
    ∧ (∀ c mem, c < 50 → ∃ buf,
        needDataStep ⟨c, video_info⟩ mem = (⟨c + 1, video_info⟩, .pushed buf))
    ∧ ∀ s mem, s.counter = 50 → needDataStep s mem = (s, .eos) := by
  have hrun := (runNeedData_spec mems n).1
  refine ⟨rfl, ?_, ?_, ?_, ?_⟩
  · rw [hrun]
  · rw [hrun]; simp
  · intro c mem hc
    obtain ⟨buf, hstep, -, -, -, -⟩ := needDataStep_produce c mem (by omega)
    exact ⟨buf, hstep⟩
  · intro s mem hs
    exact needDataStep_eos s mem hs

theorem spec_C4_counter_witness :
    (runNeedData (fun _ => []) 0).1.counter = 0
    ∧ (runNeedData (fun _ => []) 52).1.counter = min 52 50
    ∧ (runNeedData (fun _ => []) 52).1.counter ≤ 50
    ∧ (∀ c mem, c < 50 → ∃ buf,
        needDataStep ⟨c, video_info⟩ mem = (⟨c + 1, video_info⟩, .pushed buf))
    ∧ ∀ s mem, s.counter = 50 → needDataStep s mem = (s, .eos) :=
  spec_C4_counter (fun _ => []) 52

/-- C5: Each failure kind the program propagates from the external
libraries is surfaced as a fatal, printed outcome with no recovery, retry
or partial-failure handling: with GStreamer initialised, (1) if any of the
elements appsrc, videoconvert or waylandsink cannot be created,
`create_pipeline` returns a `MissingElement` error naming a missing
element and the process prints the error and ends with no pipeline
started; (2) a failed link aborts `create_pipeline` with `LinkFailed` and
the same printed fatal outcome; (3) a failed buffer allocation in the
need-data callback is a panic — the process aborts with the printed panic
message — with nothing pushed and the state unchanged, while a successful
allocation behaves as the ordinary step; and (4) every error propagated
out of `create_pipeline` leads exactly to the printed-error outcome, a
pipeline being started exactly when `create_pipeline` succeeded. -/
theorem spec_C5_fatal_failures (env : GstEnv) (hinit : env.initOk = true)
    (h : env.hasAppsrc = false ∨ env.hasVideoconvert = false ∨ env.hasWaylandsink = false) :
    (∃ name,
        (name = "appsrc" ∧ env.hasAppsrc = false
          ∨ name = "videoconvert" ∧ env.hasVideoconvert = false
          ∨ name = "waylandsink" ∧ env.hasWaylandsink = false)
        ∧ create_pipeline env = .error (.MissingElement name)
        ∧ mainOutcome env = .printedError (.MissingElement name))
    ∧ (∀ env2 : GstEnv, env2.initOk = true → env2.hasAppsrc = true →
        env2.hasVideoconvert = true → env2.hasWaylandsink = true →
        env2.addOk = true → env2.linkOk = false →
        create_pipeline env2 = .error .LinkFailed
          ∧ mainOutcome env2 = .printedError .LinkFailed)
    ∧ (∀ s : SrcState, s.counter ≠ 50 →
        needDataStepAlloc s none = (s, .panicked)
          ∧ ((needDataStepAlloc s none).2).fatal = true)
    ∧ (∀ (s : SrcState) (mem : List Nat), needDataStepAlloc s (some mem) = needDataStep s mem)
    ∧ (∀ env2 e, create_pipeline env2 = .error e → mainOutcome env2 = .printedError e)
    ∧ (∀ env2 p, create_pipeline env2 = .ok p → mainOutcome env2 = .started p) := by
  refine ⟨?_, ?_, ?_, ?_, ?_, ?_⟩
  · cases happ : env.hasAppsrc with
    | false =>
      have hcp : create_pipeline env = .error (.MissingElement "appsrc") := by
        rw [create_pipeline]
        simp [hinit, happ]
      exact ⟨"appsrc", Or.inl ⟨rfl, rfl⟩, hcp, by rw [mainOutcome, hcp]⟩
    | true =>
      cases hvc : env.hasVideoconvert with
      | false =>
        have hcp : create_pipeline env = .error (.MissingElement "videoconvert") := by
          rw [create_pipeline]
          simp [hinit, happ, hvc]
        exact ⟨"videoconvert", Or.inr (Or.inl ⟨rfl, rfl⟩), hcp, by rw [mainOutcome, hcp]⟩
      | true =>
        cases hws : env.hasWaylandsink with
        | false =>
          have hcp : create_pipeline env = .error (.MissingElement "waylandsink") := by
            rw [create_pipeline]
            simp [hinit, happ, hvc, hws]
          exact ⟨"waylandsink", Or.inr (Or.inr ⟨rfl, rfl⟩), hcp, by rw [mainOutcome, hcp]⟩
        | true =>
          rw [happ, hvc, hws] at h
          rcases h with h | h | h <;> exact Bool.noConfusion h
  · intro env2 h1 h2 h3 h4 h5 h6
    have hcp : create_pipeline env2 = .error .LinkFailed := by
      rw [create_pipeline]
      simp [h1, h2, h3, h4, h5, h6]
    exact ⟨hcp, by rw [mainOutcome, hcp]⟩
  · intro s hs
    have he : needDataStepAlloc s none = (s, .panicked) := by
      rw [needDataStepAlloc, if_neg hs]
    exact ⟨he, by rw [he]; rfl⟩
  · intro s mem
    rfl
  · intro env2 e he
    rw [mainOutcome, he]
  · intro env2 p hp
    rw [mainOutcome, hp]

theorem spec_C5_fatal_failures_witness :
    (∃ name,
        (name = "appsrc" ∧ (GstEnv.mk true false true true true true).hasAppsrc = false
          ∨ name = "videoconvert"
            ∧ (GstEnv.mk true false true true true true).hasVideoconvert = false
          ∨ name = "waylandsink"
            ∧ (GstEnv.mk true false true true true true).hasWaylandsink = false)
        ∧ create_pipeline (GstEnv.mk true false true true true true)
            = .error (.MissingElement name)
        ∧ mainOutcome (GstEnv.mk true false true true true true)
            = .printedError (.MissingElement name))
    ∧ (∀ env2 : GstEnv, env2.initOk = true → env2.hasAppsrc = true →
        env2.hasVideoconvert = true → env2.hasWaylandsink = true →
        env2.addOk = true → env2.linkOk = false →
        create_pipeline env2 = .error .LinkFailed
          ∧ mainOutcome env2 = .printedError .LinkFailed)
    ∧ (∀ s : SrcState, s.counter ≠ 50 →
        needDataStepAlloc s none = (s, .panicked)
          ∧ ((needDataStepAlloc s none).2).fatal = true)
    ∧ (∀ (s : SrcState) (mem : List Nat), needDataStepAlloc s (some mem) = needDataStep s mem)
    ∧ (∀ env2 e, create_pipeline env2 = .error e → mainOutcome env2 = .printedError e)
    ∧ (∀ env2 p, create_pipeline env2 = .ok p → mainOutcome env2 = .started p) :=
  spec_C5_fatal_failures (GstEnv.mk true false true true true true) rfl (Or.inl rfl)

/-- C6: The gradient loop writes exactly buf_x × buf_y = 640 × 480
four-byte values, and for every pixel index `i` the written u32 value,
computed with the loop's wrapping u32 arithmetic, equals the claimed
closed-form value (0xFF << 24) + (r << 16) + (g << 8) + b over plain
truncating integer arithmetic, and that value fits in 32 bits. -/
theorem spec_C6_gradient (i : Nat) (hi : i < buf_x * buf_y) :
    gradPixel i = gradPixelSpec i
    ∧ gradPixelSpec i < 2 ^ 32
    ∧ tmpWrites.length = buf_x * buf_y
    ∧ buf_x * buf_y = 640 * 480
    ∧ (toNeBytes (gradPixel i)).length = 4 := by
  obtain ⟨heq, hlt⟩ := gradPixel_eq_spec i hi
  refine ⟨heq, hlt, ?_, rfl, rfl⟩
  rw [tmpWrites, List.length_map, List.length_range]

theorem spec_C6_gradient_witness :
    gradPixel 0 = gradPixelSpec 0
    ∧ gradPixelSpec 0 < 2 ^ 32
    ∧ tmpWrites.length = buf_x * buf_y
    ∧ buf_x * buf_y = 640 * 480
    ∧ (toNeBytes (gradPixel 0)).length = 4 :=
  spec_C6_gradient 0 (by norm_num [buf_x, buf_y])

/-- C7: The video format descriptor is the single fixed value BGRx 320×240
at 2/1 frames per second; a successfully created pipeline carries exactly
it as the appsrc caps and in the closure state used to map every frame; and
no need-data invocation ever modifies the descriptor held in the closure
state, so after any run it is still `video_info`. -/
theorem spec_C7_fixed_format (mems : Nat → List Nat) (n : Nat) :
    video_info = { format := .Bgrx, width := 320, height := 240, fpsNum := 2, fpsDen := 1 }
    ∧ (∀ env p, create_pipeline env = .ok p →
        p.caps = video_info ∧ p.srcInit.info = video_info)
    ∧ (∀ s mem, ((needDataStep s mem).1).info = s.info)
    ∧ (runNeedData mems n).1.info = video_info := by
  refine ⟨rfl, ?_, ?_, ?_⟩
  · intro env p hp
    rw [create_pipeline_ok env p hp]
    exact ⟨rfl, rfl⟩
  · intro s mem
    rw [needDataStep]
    by_cases hc : s.counter = 50
    · rw [if_pos hc]
    · rw [if_neg hc]
      cases produceFrame s.info s.counter mem with
      | none => rfl
      | some buf => rfl
  · rw [(runNeedData_spec mems n).1]

theorem spec_C7_fixed_format_witness :
    video_info = { format := .Bgrx, width := 320, height := 240, fpsNum := 2, fpsDen := 1 }
    ∧ (∀ env p, create_pipeline env = .ok p →
        p.caps = video_info ∧ p.srcInit.info = video_info)
    ∧ (∀ s mem, ((needDataStep s mem).1).info = s.info)
    ∧ (runNeedData (fun _ => []) 7).1.info = video_info :=
  spec_C7_fixed_format (fun _ => []) 7

/-- C8: Every buffer pushed at counter value `c` has presentation timestamp
c × 500 milliseconds (in nanoseconds, c × 500 × MSECOND); the timestamps of
the pushed buffers of any run are 0·500ms, 1·500ms, … in order and strictly
increasing; and 500 ms per frame is exactly the period of the declared 2/1
frames-per-second rate. -/
theorem spec_C8_pts (mems : Nat → List Nat) (n c : Nat) (mem : List Nat)
    (s2 : SrcState) (buf : FrameBuffer)
    (h : needDataStep ⟨c, video_info⟩ mem = (s2, .pushed buf)) :
    buf.ptsNs = c * 500 * MSECOND
    ∧ (pushedBuffers (runNeedData mems n).2).map FrameBuffer.ptsNs
        = (List.range (min n 50)).map (fun k => k * 500 * MSECOND)
    ∧ List.Pairwise (· < ·) ((pushedBuffers (runNeedData mems n).2).map FrameBuffer.ptsNs)
    ∧ MSECOND = 1000000
    ∧ 500 * MSECOND * video_info.fpsNum = 1000 * MSECOND * video_info.fpsDen := by
  obtain ⟨hpf, -, -⟩ := needDataStep_pushed _ _ _ _ h
  obtain ⟨-, hpts⟩ := runNeedData_spec mems n
  refine ⟨produceFrame_ptsNs _ _ _ _ hpf, hpts, ?_, rfl, rfl⟩
  rw [hpts]
  refine List.Pairwise.map _ ?_ (List.pairwise_lt_range _)
  intro a b hab
  simp only [MSECOND]
  omega

theorem spec_C8_pts_witness :
    ({ size := 307200, ptsNs := 0, data := [] } : FrameBuffer).ptsNs = 0 * 500 * MSECOND
    ∧ (pushedBuffers (runNeedData (fun _ => []) 2).2).map FrameBuffer.ptsNs
        = (List.range (min 2 50)).map (fun k => k * 500 * MSECOND)
    ∧ List.Pairwise (· < ·)
        ((pushedBuffers (runNeedData (fun _ => []) 2).2).map FrameBuffer.ptsNs)
    ∧ MSECOND = 1000000
    ∧ 500 * MSECOND * video_info.fpsNum = 1000 * MSECOND * video_info.fpsDen :=
  spec_C8_pts (fun _ => []) 2 0 [] ⟨1, video_info⟩
    { size := 307200, ptsNs := 0, data := [] } (by decide)

/-- C9: Under the preconditions that the mapped plane has a positive stride
of at least 4 × width bytes per line and at least height × stride bytes in
total, the pixel-fill loop never goes out of bounds: it completes without a
panic, preserves the plane's byte length, leaves everything past the first
height stride-sized lines untouched, and within each visited line touches
only the first 4 × width bytes. -/
theorem spec_C9_fill_in_bounds (stride width height b g r : Nat) (data : List Nat)
    (hsw : 4 * width ≤ stride) (hpos : 0 < stride)
    (htotal : height * stride ≤ data.length) :
    ∃ out, fillPlane stride width height b g r data = some out
      ∧ out.length = data.length
      ∧ out.drop (stride * height) = data.drop (stride * height)
      ∧ ∀ l, l < height →
          (out.drop (l * stride + 4 * width)).take (stride - 4 * width)
            = (data.drop (l * stride + 4 * width)).take (stride - 4 * width) := by
  obtain ⟨out, hout, hlen, hdrop, hline⟩ := fillLines_spec stride width b g r hsw height data
  refine ⟨out, ?_, hlen, hdrop, hline⟩
  rw [fillPlane, if_neg (by omega)]
  exact hout

theorem spec_C9_fill_in_bounds_witness :
    ∃ out, fillPlane 1280 320 240 0 0 0 (List.replicate 307200 9) = some out
      ∧ out.length = (List.replicate 307200 9).length
      ∧ out.drop (1280 * 240) = (List.replicate 307200 9).drop (1280 * 240)
      ∧ ∀ l, l < 240 →
          ((out.drop (l * 1280 + 4 * 320)).take (1280 - 4 * 320)
            = ((List.replicate 307200 9).drop (l * 1280 + 4 * 320)).take (1280 - 4 * 320)) :=
  spec_C9_fill_in_bounds 1280 320 240 0 0 0 (List.replicate 307200 9)
    (by norm_num) (by norm_num) (by rw [List.length_replicate])

/-- C10: The byte size declared to `shm.create_pool`, buf_x × buf_y × 4 =
1228800 bytes, equals exactly the number of bytes the gradient loop writes
to the backing tempfile, and the buffer created in the pool (offset 0,
width buf_x, height buf_y, stride buf_x × 4) lies entirely within the
declared pool size. -/
theorem spec_C10_pool :
    poolSize = 1228800
    ∧ tmpBytes.length = poolSize
    ∧ windowBuffer.offset + windowBuffer.height * windowBuffer.stride ≤ poolSize
    ∧ windowBuffer = { offset := 0, width := 640, height := 480, stride := 2560 } := by
  refine ⟨rfl, ?_, ?_, rfl⟩
  · rw [length_tmpBytes, poolSize]
  · norm_num [windowBuffer, poolSize, buf_x, buf_y]

end WaylandOverlay
